import Mathlib

/-!
Verification development for the real-time WebSocket connection/subscription
manager of the FinanceGPT backend (`backend/api/websocket.py`).

The Python classes `ConnectionManager` (one client connection) and
`WebSocketManager` (the process-wide manager) are embedded shallowly:

* Python `dict` becomes an association list `List (String × α)`; assignment
  `d[k] = v` replaces the first binding of `k` (or appends), `del d[k]` drops
  the bindings of `k`, membership/lookup inspects the first binding.
* Python `set` of strings becomes a `List String` with add-if-absent and
  discard-by-filter, matching the membership semantics the code relies on.
* The transport (`websocket.send_text`, its `client_state`, exceptions raised
  by the channel) is the environment; each send attempt is parameterised by a
  `SendOutcome` oracle describing how the channel behaves at that attempt.
  `async`/`await` interleaving is irrelevant here: every manager operation
  mutates state only between suspension points, so one operation is one pure
  state transformer.
* Operations that perform sends additionally return a trace of the
  `ConnectionManager.send_personal_message` attempts they made, so delivery
  order and fan-out coverage are observable in the model.
-/

set_option autoImplicit false

namespace WS

/-- Messages exchanged on a channel. Application payloads are opaque; the
manager itself originates welcome and subscription-confirmation messages. -/
inductive Msg where
  | payload : Nat → Msg
  | welcome : String → Msg
  | subConfirm : String → Msg
deriving DecidableEq

/-- Outcome the environment assigns to one `send_text` attempt on a channel:
the channel is in `CONNECTED` state and the write succeeds, the channel is not
in `CONNECTED` state (the pre-send readiness check fails), or the write raises
a transport exception. -/
inductive SendOutcome where
  | ok
  | notConnected
  | exn
deriving DecidableEq

section Dict

variable {α : Type}

/-- `d[k]` / `k in d` on a Python dict: the first binding of the key. -/
def dlookup : List (String × α) → String → Option α
  | [], _ => none
  | (k, v) :: rest, key => if k = key then some v else dlookup rest key

/-- `d[k] = v` on a Python dict: replace the first binding, else append. -/
def dinsert : List (String × α) → String → α → List (String × α)
  | [], key, v => [(key, v)]
  | (k, w) :: rest, key, v =>
      if k = key then (key, v) :: rest else (k, w) :: dinsert rest key v

/-- `del d[k]` on a Python dict: drop the bindings of the key. -/
def derase : List (String × α) → String → List (String × α)
  | [], _ => []
  | (k, v) :: rest, key =>
      if k = key then derase rest key else (k, v) :: derase rest key

end Dict

/-- Python class `ConnectionManager`: one client's connection state.
`subscriptions` is the set initialised to `set()` in `__init__`;
`last_ping` is the `datetime.utcnow()` timestamp, modelled as a `Nat`. -/
structure ConnectionManager where
  client_id : String
  subscriptions : List String
  last_ping : Nat
  is_active : Bool
deriving DecidableEq

/-- `ConnectionManager.send_personal_message`: returns `False` at once if
`is_active` is already false; otherwise the readiness check or the
`send_text` call can fail, in which case `is_active` is set to false and
`False` is returned; on success the connection is unchanged and `True` is
returned. Never raises to the caller. -/
def ConnectionManager.send_personal_message
    (c : ConnectionManager) (o : SendOutcome) : ConnectionManager × Bool :=
  if c.is_active = false then (c, false)
  else
    match o with
    | .notConnected => ({ c with is_active := false }, false)
    | .exn => ({ c with is_active := false }, false)
    | .ok => (c, true)

/-- `ConnectionManager.ping`: attempts a ping `send_text` (regardless of
`is_active`); on success updates `last_ping` and returns `True`, on an
exception sets `is_active := false` and returns `False`. -/
def ConnectionManager.ping
    (c : ConnectionManager) (ok : Bool) (now : Nat) : ConnectionManager × Bool :=
  if ok then ({ c with last_ping := now }, true)
  else ({ c with is_active := false }, false)

/-- The `stats` dict of `WebSocketManager`. -/
structure Stats where
  total_connections : Nat
  active_connections : Nat
  messages_sent : Nat
  failed_sends : Nat
deriving DecidableEq

/-- Python class `WebSocketManager`: `active_connections` maps client id to
its `ConnectionManager`, `subscriptions` maps topic to the set of subscribed
client ids, `message_queue` holds pending messages for offline clients. -/
structure WebSocketManager where
  active_connections : List (String × ConnectionManager)
  subscriptions : List (String × List String)
  message_queue : List (String × List Msg)
  stats : Stats
deriving DecidableEq

/-- The state built by `WebSocketManager.__init__`. -/
def WebSocketManager.init : WebSocketManager :=
  ⟨[], [], [], ⟨0, 0, 0, 0⟩⟩

/-- The `for message in self.message_queue[client_id]` flush inside
`connect`: sends each queued message in list order through the connection,
threading the connection state, and records each attempt `(message, result)`.
`fOut i` is the channel outcome of the `i`-th flush send. -/
def flushQueued (fOut : Nat → SendOutcome) :
    ConnectionManager → Nat → List Msg → ConnectionManager × List (Msg × Bool)
  | c, _, [] => (c, [])
  | c, i, msg :: rest =>
      let r := c.send_personal_message (fOut i)
      let rec' := flushQueued fOut r.1 (i + 1) rest
      (rec'.1, (msg, r.2) :: rec'.2)

/-- `WebSocketManager.connect`: accepts the channel, stores a fresh
`ConnectionManager` under `cid` (the supplied or freshly generated client id),
bumps `total_connections`, recomputes `active_connections`, sends the welcome
message, then flushes and deletes any offline queue entry for `cid`. Returns
the new state and the trace of send attempts (welcome first, then the queued
messages in order). -/
def WebSocketManager.connect (m : WebSocketManager) (cid : String)
    (wOut : SendOutcome) (fOut : Nat → SendOutcome) :
    WebSocketManager × List (Msg × Bool) :=
  let conn : ConnectionManager := ⟨cid, [], 0, true⟩
  let ac := dinsert m.active_connections cid conn
  let st : Stats :=
    { m.stats with
        total_connections := m.stats.total_connections + 1
        active_connections := ac.length }
  let w := conn.send_personal_message wOut
  let ac2 := dinsert ac cid w.1
  let m2 : WebSocketManager :=
    { m with active_connections := ac2, stats := st }
  match dlookup m2.message_queue cid with
  | none => (m2, [(Msg.welcome cid, w.2)])
  | some msgs =>
      let f := flushQueued fOut w.1 0 msgs
      ({ m2 with
          active_connections := dinsert ac2 cid f.1
          message_queue := derase m2.message_queue cid },
       (Msg.welcome cid, w.2) :: f.2)

/-- The `for topic in list(self.subscriptions.keys())` loop of `disconnect`:
discards `cid` from each topic's subscriber set and deletes topics whose set
becomes empty (the deletion happens only inside the `if client_id in` branch,
exactly as in the source). -/
def removeClientFromTopics
    (subs : List (String × List String)) (cid : String) :
    List (String × List String) :=
  subs.filterMap (fun p =>
    if cid ∈ p.2 then
      let s := p.2.filter (fun x => x != cid)
      if s.isEmpty then none else some (p.1, s)
    else some p)

/-- `WebSocketManager.disconnect`: if `cid` has a connection, remove it from
every topic's subscriber set (pruning emptied topics), delete the connection
entry and recompute `stats.active_connections`; otherwise do nothing. -/
def WebSocketManager.disconnect (m : WebSocketManager) (cid : String) :
    WebSocketManager :=
  match dlookup m.active_connections cid with
  | some _ =>
      let ac := derase m.active_connections cid
      { m with
          subscriptions := removeClientFromTopics m.subscriptions cid
          active_connections := ac
          stats := { m.stats with active_connections := ac.length } }
  | none => m

/-- The `if topic not in self.subscriptions: self.subscriptions[topic] =
set()` step of `subscribe`. -/
def topicEnsured (subs : List (String × List String)) (topic : String) :
    List (String × List String) :=
  match dlookup subs topic with
  | none => dinsert subs topic []
  | some _ => subs

/-- Python `set.add`: append the element unless already present. -/
def setAdd (s : List String) (x : String) : List String :=
  if x ∈ s then s else s ++ [x]

/-- `WebSocketManager.subscribe`: create the topic entry if absent, add `cid`
to the topic's subscriber set (unconditionally), then — only if `cid` has a
live connection — send a best-effort confirmation, whose outcome `o` does not
roll back the subscription. -/
def WebSocketManager.subscribe (m : WebSocketManager)
    (cid topic : String) (o : SendOutcome) : WebSocketManager :=
  let subs0 := topicEnsured m.subscriptions topic
  let subs1 := dinsert subs0 topic (setAdd ((dlookup subs0 topic).getD []) cid)
  match dlookup m.active_connections cid with
  | some conn =>
      let r := conn.send_personal_message o
      { m with
          subscriptions := subs1
          active_connections := dinsert m.active_connections cid r.1 }
  | none => { m with subscriptions := subs1 }

/-- `WebSocketManager.unsubscribe`: discard `cid` from the topic's set if the
topic exists, deleting the topic entry if the set becomes empty; no-op on an
unknown topic. No confirmation is sent. -/
def WebSocketManager.unsubscribe (m : WebSocketManager)
    (cid topic : String) : WebSocketManager :=
  match dlookup m.subscriptions topic with
  | some s =>
      let s' := s.filter (fun x => x != cid)
      if s'.isEmpty then { m with subscriptions := derase m.subscriptions topic }
      else { m with subscriptions := dinsert m.subscriptions topic s' }
  | none => m

/-- `WebSocketManager.send_personal_message`: targeted delivery. With a live
active connection, attempt the send; on success bump `messages_sent`, on
failure disconnect the client and bump `failed_sends`. With a live inactive
connection, just disconnect. With no connection, append the message to the
offline queue (creating the entry if needed). -/
def WebSocketManager.send_personal_message (m : WebSocketManager)
    (cid : String) (msg : Msg) (o : SendOutcome) : WebSocketManager :=
  match dlookup m.active_connections cid with
  | some conn =>
      if conn.is_active then
        let r := conn.send_personal_message o
        if r.2 then
          { m with
              active_connections := dinsert m.active_connections cid r.1
              stats := { m.stats with messages_sent := m.stats.messages_sent + 1 } }
        else
          let m1 : WebSocketManager :=
            { m with active_connections := dinsert m.active_connections cid r.1 }
          let m2 := m1.disconnect cid
          { m2 with stats := { m2.stats with failed_sends := m2.stats.failed_sends + 1 } }
      else m.disconnect cid
  | none =>
      let q := (dlookup m.message_queue cid).getD []
      { m with message_queue := dinsert m.message_queue cid (q ++ [msg]) }

/-- The fan-out `for client_id in <snapshot>` loop shared by
`broadcast_to_topic` and `broadcast_to_all`: for each client id in the
snapshot, if it has a live active connection, attempt the send (`env cid`
being the channel outcome), bumping `messages_sent` on success and collecting
the client and bumping `failed_sends` on failure; a live inactive connection
is collected without an attempt. Returns the final manager, the collected
`disconnected_clients` list in iteration order, and the trace of send
attempts `(client_id, result)`. `fanoutStep` is the state change of one
iteration that reached an active connection: the connection is written back
after its send attempt and the success/failure counter is bumped. -/
def fanoutStep (m : WebSocketManager) (cid : String)
    (conn : ConnectionManager) (o : SendOutcome) : WebSocketManager :=
  { m with
      active_connections :=
        dinsert m.active_connections cid (conn.send_personal_message o).1
      stats :=
        if (conn.send_personal_message o).2 then
          { m.stats with messages_sent := m.stats.messages_sent + 1 }
        else
          { m.stats with failed_sends := m.stats.failed_sends + 1 } }

def fanout (env : String → SendOutcome) :
    WebSocketManager → List String →
    WebSocketManager × List String × List (String × Bool)
  | m, [] => (m, [], [])
  | m, cid :: rest =>
      match dlookup m.active_connections cid with
      | some conn =>
          if conn.is_active then
            let rec' := fanout env (fanoutStep m cid conn (env cid)) rest
            (rec'.1,
             (if (conn.send_personal_message (env cid)).2 then rec'.2.1
              else cid :: rec'.2.1),
             (cid, (conn.send_personal_message (env cid)).2) :: rec'.2.2)
          else
            let rec' := fanout env m rest
            (rec'.1, cid :: rec'.2.1, rec'.2.2)
      | none => fanout env m rest

/-- `WebSocketManager.broadcast_to_topic`: no-op on an unknown topic
(creating no entry); otherwise snapshot the topic's subscriber set, fan out
to the snapshot, and only after the full pass disconnect every collected
client. Returns the final state and the fan-out send-attempt trace. -/
def WebSocketManager.broadcast_to_topic (m : WebSocketManager)
    (topic : String) (env : String → SendOutcome) :
    WebSocketManager × List (String × Bool) :=
  match dlookup m.subscriptions topic with
  | none => (m, [])
  | some snap =>
      let r := fanout env m snap
      (r.2.1.foldl (fun mm c => mm.disconnect c) r.1, r.2.2)

/-- `WebSocketManager.broadcast_to_all`: same pattern over a snapshot of all
connected client ids, independent of topic membership. -/
def WebSocketManager.broadcast_to_all (m : WebSocketManager)
    (env : String → SendOutcome) :
    WebSocketManager × List (String × Bool) :=
  let r := fanout env m (m.active_connections.map Prod.fst)
  (r.2.1.foldl (fun mm c => mm.disconnect c) r.1, r.2.2)

/-- The truncation applied to one offline queue by the body of
`_cleanup_loop`: a queue longer than 100 is replaced by `messages[-100:]`,
its most recent 100 messages; shorter queues are untouched. -/
def truncQueue (msgs : List Msg) : List Msg :=
  if msgs.length > 100 then msgs.drop (msgs.length - 100) else msgs

/-- One pass of the body of `WebSocketManager._cleanup_loop`: every offline
queue entry is truncated by `truncQueue`. -/
def cleanupPass (q : List (String × List Msg)) : List (String × List Msg) :=
  q.map (fun p => (p.1, truncQueue p.2))

/-- A sequence of `send_personal_message(cid, msg)` calls, in list order, all
with channel outcome `o` (irrelevant when `cid` is offline). -/
def offlineSends (m : WebSocketManager) (cid : String) (msgs : List Msg)
    (o : SendOutcome) : WebSocketManager :=
  msgs.foldl (fun mm msg => mm.send_personal_message cid msg o) m

/-- Monotonicity of liveness across one manager operation: every client whose
stored connection is active afterwards already had an active stored
connection before (so no operation flips a stored `is_active` from false back
to true). -/
def activeMono (m' m : WebSocketManager) : Prop :=
  ∀ cid c', dlookup m'.active_connections cid = some c' → c'.is_active = true →
    ∃ c, dlookup m.active_connections cid = some c ∧ c.is_active = true

/-- The stats-consistency invariant: the `active_connections` counter equals
the number of stored connections. -/
def statsInv (m : WebSocketManager) : Prop :=
  m.stats.active_connections = m.active_connections.length

/-- `cid` has been fully torn down: no stored connection and no membership in
any topic's subscriber set (over all bindings). -/
def goneP (cid : String) (m : WebSocketManager) : Prop :=
  dlookup m.active_connections cid = none ∧
    ∀ p ∈ m.subscriptions, cid ∉ p.2

/-- The intermediate state of the failing-send path of
`WebSocketManager.send_personal_message`: the failed connection has been
written back, just before the `disconnect`. -/
def sendFailWriteback (m : WebSocketManager) (cid : String)
    (conn : ConnectionManager) (o : SendOutcome) : WebSocketManager :=
  { m with active_connections :=
      dinsert m.active_connections cid (conn.send_personal_message o).1 }

/-- A manager with one stored, inactive connection, used to evaluate the
inactive-send path on a concrete state. -/
def mInact : WebSocketManager :=
  ⟨[("a", ⟨"a", [], 0, false⟩)], [("t", ["a"])], [], ⟨1, 1, 0, 0⟩⟩

/-- A single inactive connection, used to evaluate the fail-fast send path on
a concrete input. -/
def cInact : ConnectionManager := ⟨"a", [], 0, false⟩

/-- Two live clients subscribed to topic `t`, used to evaluate a broadcast in
which one send fails. -/
def mBroad : WebSocketManager :=
  ⟨[("a", ⟨"a", [], 0, true⟩), ("b", ⟨"b", [], 0, true⟩)],
   [("t", ["a", "b"])], [], ⟨2, 2, 0, 0⟩⟩

/-- A channel environment in which client `a`'s send raises and every other
send succeeds. -/
def envBroad : String → SendOutcome :=
  fun cid => if cid = "a" then SendOutcome.exn else SendOutcome.ok

/-- The state after client `a` connects to the initial manager with all sends
succeeding. -/
def mC1a : WebSocketManager :=
  (WebSocketManager.init.connect "a" SendOutcome.ok (fun _ => SendOutcome.ok)).1

/-- The state after that connected client `a` subscribes to topic `t`. -/
def mC1b : WebSocketManager := mC1a.subscribe "a" "t" SendOutcome.ok

/-- The state after a `subscribe` by a client id with no connection at all. -/
def mC2 : WebSocketManager :=
  WebSocketManager.init.subscribe "ghost" "t" SendOutcome.ok

/-- A 101-message list, exercising the cleanup cap. -/
def msEx : List Msg := (List.range 101).map Msg.payload

/-- An offline-queue mapping holding the 101-message list for client `c`. -/
def qEx : List (String × List Msg) := [("c", msEx)]

section DictLemmas

variable {α β : Type}

theorem dlookup_dinsert_self (l : List (String × α)) (k : String) (v : α) :
    dlookup (dinsert l k v) k = some v := by
  induction l with
  | nil => simp [dinsert, dlookup]
  | cons p rest ih =>
      obtain ⟨a, b⟩ := p
      by_cases h : a = k
      · simp [dinsert, h, dlookup]
      · simp [dinsert, h, dlookup, ih]

theorem dlookup_dinsert_ne (l : List (String × α)) (k k' : String) (v : α)
    (h : k' ≠ k) : dlookup (dinsert l k v) k' = dlookup l k' := by
  induction l with
  | nil => simp [dinsert, dlookup, Ne.symm h]
  | cons p rest ih =>
      obtain ⟨a, b⟩ := p
      by_cases ha : a = k
      · subst ha
        simp [dinsert, dlookup, Ne.symm h]
      · simp only [dinsert, if_neg ha, dlookup]
        by_cases hb : a = k'
        · simp [hb]
        · simp [hb, ih]

theorem dlookup_derase_self (l : List (String × α)) (k : String) :
    dlookup (derase l k) k = none := by
  induction l with
  | nil => simp [derase, dlookup]
  | cons p rest ih =>
      obtain ⟨a, b⟩ := p
      by_cases h : a = k
      · simpa [derase, h] using ih
      · simpa [derase, h, dlookup] using ih

theorem dlookup_derase_ne (l : List (String × α)) (k k' : String)
    (h : k' ≠ k) : dlookup (derase l k) k' = dlookup l k' := by
  induction l with
  | nil => simp [derase, dlookup]
  | cons p rest ih =>
      obtain ⟨a, b⟩ := p
      by_cases ha : a = k
      · subst ha
        simp [derase, dlookup, Ne.symm h, ih]
      · simp only [derase, if_neg ha, dlookup]
        by_cases hb : a = k'
        · simp [hb]
        · simp [hb, ih]

theorem dlookup_derase_some (l : List (String × α)) (k k' : String) (v : α)
    (h : dlookup (derase l k) k' = some v) : dlookup l k' = some v := by
  by_cases hk : k' = k
  · subst hk; rw [dlookup_derase_self] at h; exact absurd h (by simp)
  · rwa [dlookup_derase_ne l k k' hk] at h

theorem dlookup_derase_none (l : List (String × α)) (k k' : String)
    (h : dlookup l k' = none) : dlookup (derase l k) k' = none := by
  by_cases hk : k' = k
  · subst hk; exact dlookup_derase_self l k'
  · rwa [dlookup_derase_ne l k k' hk]

theorem length_dinsert_isSome (l : List (String × α)) (k : String) (v : α)
    (h : (dlookup l k).isSome) : (dinsert l k v).length = l.length := by
  induction l with
  | nil => simp [dlookup] at h
  | cons p rest ih =>
      obtain ⟨a, b⟩ := p
      by_cases ha : a = k
      · simp [dinsert, ha]
      · simp only [dlookup, if_neg ha] at h
        simp [dinsert, if_neg ha, ih h]

theorem dlookup_mem (l : List (String × α)) (k : String) (v : α)
    (h : dlookup l k = some v) : (k, v) ∈ l := by
  induction l with
  | nil => simp [dlookup] at h
  | cons p rest ih =>
      obtain ⟨a, b⟩ := p
      by_cases ha : a = k
      · subst ha
        rw [dlookup, if_pos rfl] at h
        injection h with h
        subst h
        exact List.mem_cons_self _ _
      · rw [dlookup, if_neg ha] at h
        exact List.mem_cons_of_mem _ (ih h)

theorem dlookup_map_value (g : α → β) (l : List (String × α)) (k : String) :
    dlookup (l.map (fun p => (p.1, g p.2))) k = (dlookup l k).map g := by
  induction l with
  | nil => simp [dlookup]
  | cons p rest ih =>
      obtain ⟨a, b⟩ := p
      by_cases ha : a = k
      · simp [dlookup, ha]
      · simp [dlookup, ha, ih]

end DictLemmas

section ConnectionLemmas

theorem send_pm_subscriptions (c : ConnectionManager) (o : SendOutcome) :
    (c.send_personal_message o).1.subscriptions = c.subscriptions := by
  cases h : c.is_active <;> cases o <;>
    simp [ConnectionManager.send_personal_message, h]

theorem send_pm_active_mono (c : ConnectionManager) (o : SendOutcome)
    (h : (c.send_personal_message o).1.is_active = true) : c.is_active = true := by
  cases hc : c.is_active
  · cases o <;> simp [ConnectionManager.send_personal_message, hc] at h
  · rfl

theorem send_pm_true (c : ConnectionManager) (o : SendOutcome)
    (h : (c.send_personal_message o).2 = true) :
    (c.send_personal_message o).1 = c ∧ c.is_active = true ∧ o = SendOutcome.ok := by
  cases hc : c.is_active <;> cases o <;>
    simp_all [ConnectionManager.send_personal_message]

theorem send_pm_false (c : ConnectionManager) (o : SendOutcome)
    (h : (c.send_personal_message o).2 = false) :
    (c.send_personal_message o).1.is_active = false := by
  cases hc : c.is_active <;> cases o <;>
    simp_all [ConnectionManager.send_personal_message]

theorem send_pm_inactive_false (c : ConnectionManager) (o : SendOutcome)
    (h : c.is_active = false) : (c.send_personal_message o).2 = false := by
  simp [ConnectionManager.send_personal_message, h]

end ConnectionLemmas

section DisconnectLemmas

theorem disconnect_of_none (m : WebSocketManager) (cid : String)
    (h : dlookup m.active_connections cid = none) : m.disconnect cid = m := by
  simp [WebSocketManager.disconnect, h]

theorem disconnect_stats_frame (m : WebSocketManager) (cid : String) :
    (m.disconnect cid).stats.messages_sent = m.stats.messages_sent ∧
    (m.disconnect cid).stats.failed_sends = m.stats.failed_sends ∧
    (m.disconnect cid).stats.total_connections = m.stats.total_connections := by
  cases hl : dlookup m.active_connections cid <;>
    simp [WebSocketManager.disconnect, hl]

theorem disconnect_message_queue (m : WebSocketManager) (cid : String) :
    (m.disconnect cid).message_queue = m.message_queue := by
  cases hl : dlookup m.active_connections cid <;>
    simp [WebSocketManager.disconnect, hl]

theorem disconnect_lookup_self (m : WebSocketManager) (cid : String)
    (h : (dlookup m.active_connections cid).isSome) :
    dlookup (m.disconnect cid).active_connections cid = none := by
  obtain ⟨c, hc⟩ := Option.isSome_iff_exists.mp h
  simp [WebSocketManager.disconnect, hc, dlookup_derase_self]

end DisconnectLemmas

/-- C8: `disconnect` is idempotent — applying it twice to the same client id
produces exactly the manager state (connections, topic index, offline queue
and stats) of applying it once, and applying it to a client id with no stored
connection leaves the whole state unchanged. -/
theorem c8_disconnect_idempotent (m : WebSocketManager) (cid : String) :
    (m.disconnect cid).disconnect cid = m.disconnect cid ∧
    (dlookup m.active_connections cid = none → m.disconnect cid = m) := by
  constructor
  · cases hl : dlookup m.active_connections cid with
    | none =>
        rw [disconnect_of_none m cid hl]
        exact disconnect_of_none m cid hl
    | some c =>
        apply disconnect_of_none
        simp [WebSocketManager.disconnect, hl, dlookup_derase_self]
  · exact disconnect_of_none m cid

/-- C8 witness: idempotence and the unknown-id no-op evaluated at the initial
manager state. -/
theorem c8_disconnect_idempotent_witness :
    ((WebSocketManager.init.disconnect "a").disconnect "a" =
        WebSocketManager.init.disconnect "a") ∧
    WebSocketManager.init.disconnect "a" = WebSocketManager.init :=
  ⟨(c8_disconnect_idempotent WebSocketManager.init "a").1,
   (c8_disconnect_idempotent WebSocketManager.init "a").2 (by decide)⟩

/-- C9: `disconnect` never touches the offline message queue — the
`message_queue` mapping (hence every client's queued message list) is
identical before and after the call. -/
theorem c9_disconnect_offline_queue_frame (m : WebSocketManager) (cid : String) :
    (m.disconnect cid).message_queue = m.message_queue ∧
    ∀ x, dlookup (m.disconnect cid).message_queue x = dlookup m.message_queue x := by
  refine ⟨disconnect_message_queue m cid, fun x => ?_⟩
  rw [disconnect_message_queue m cid]

/-- C10: when the stored connection of `cid` exists but is inactive,
`send_personal_message` is exactly a `disconnect` of that client: the client
is removed and neither `messages_sent` nor `failed_sends` changes. Moreover
`failed_sends` can only change on the path where an active connection's send
attempt returns failure. -/
theorem c10_inactive_send_disconnects (m : WebSocketManager) (cid : String)
    (msg : Msg) (o : SendOutcome) (conn : ConnectionManager)
    (h1 : dlookup m.active_connections cid = some conn)
    (h2 : conn.is_active = false) :
    m.send_personal_message cid msg o = m.disconnect cid ∧
    (m.send_personal_message cid msg o).stats.messages_sent = m.stats.messages_sent ∧
    (m.send_personal_message cid msg o).stats.failed_sends = m.stats.failed_sends ∧
    dlookup (m.send_personal_message cid msg o).active_connections cid = none ∧
    ∀ (m' : WebSocketManager) (cid' : String) (msg' : Msg) (o' : SendOutcome),
      (m'.send_personal_message cid' msg' o').stats.failed_sends ≠
          m'.stats.failed_sends →
      ∃ c, dlookup m'.active_connections cid' = some c ∧ c.is_active = true ∧
        (c.send_personal_message o').2 = false := by
  have hmain : m.send_personal_message cid msg o = m.disconnect cid := by
    simp [WebSocketManager.send_personal_message, h1, h2]
  refine ⟨hmain, ?_, ?_, ?_, ?_⟩
  · rw [hmain]; exact (disconnect_stats_frame m cid).1
  · rw [hmain]; exact (disconnect_stats_frame m cid).2.1
  · rw [hmain]; exact disconnect_lookup_self m cid (by simp [h1])
  · intro m' cid' msg' o' hne
    cases hl : dlookup m'.active_connections cid' with
    | none =>
        exfalso
        apply hne
        simp [WebSocketManager.send_personal_message, hl]
    | some c =>
        cases hact : c.is_active with
        | false =>
            exfalso
            apply hne
            have : m'.send_personal_message cid' msg' o' = m'.disconnect cid' := by
              simp [WebSocketManager.send_personal_message, hl, hact]
            rw [this]
            exact (disconnect_stats_frame m' cid').2.1
        | true =>
            cases hr : (c.send_personal_message o').2 with
            | false => exact ⟨c, hl ▸ rfl, hact, hr⟩
            | true =>
                exfalso
                apply hne
                simp [WebSocketManager.send_personal_message, hl, hact, hr]

/-- C10 witness: the inactive-send path evaluated on `mInact`. -/
theorem c10_inactive_send_disconnects_witness :
    dlookup mInact.active_connections "a" = some ⟨"a", [], 0, false⟩ ∧
    mInact.send_personal_message "a" (Msg.payload 0) SendOutcome.ok =
        mInact.disconnect "a" ∧
    (mInact.send_personal_message "a" (Msg.payload 0) SendOutcome.ok).stats.messages_sent =
        mInact.stats.messages_sent ∧
    (mInact.send_personal_message "a" (Msg.payload 0) SendOutcome.ok).stats.failed_sends =
        mInact.stats.failed_sends ∧
    dlookup (mInact.send_personal_message "a" (Msg.payload 0) SendOutcome.ok).active_connections
        "a" = none := by
  have h := c10_inactive_send_disconnects mInact "a" (Msg.payload 0)
    SendOutcome.ok ⟨"a", [], 0, false⟩ (by decide) rfl
  exact ⟨by decide, h.1, h.2.1, h.2.2.1, h.2.2.2.1⟩

section MonoLemmas

theorem activeMono_refl (m : WebSocketManager) : activeMono m m :=
  fun _ c' h ha => ⟨c', h, ha⟩

theorem activeMono_trans {m3 m2 m1 : WebSocketManager}
    (h32 : activeMono m3 m2) (h21 : activeMono m2 m1) : activeMono m3 m1 := by
  intro cid c' h ha
  obtain ⟨c2, h2, ha2⟩ := h32 cid c' h ha
  exact h21 cid c2 h2 ha2

theorem activeMono_of_active_eq {m' m : WebSocketManager}
    (h : m'.active_connections = m.active_connections) : activeMono m' m := by
  intro cid c' hl ha
  exact ⟨c', h ▸ hl, ha⟩

theorem disconnect_activeMono (m : WebSocketManager) (cid : String) :
    activeMono (m.disconnect cid) m := by
  intro x c' hl ha
  cases hd : dlookup m.active_connections cid with
  | none => rw [disconnect_of_none m cid hd] at hl; exact ⟨c', hl, ha⟩
  | some c =>
      have he : (m.disconnect cid).active_connections =
          derase m.active_connections cid := by
        simp [WebSocketManager.disconnect, hd]
      rw [he] at hl
      exact ⟨c', dlookup_derase_some _ _ _ _ hl, ha⟩

theorem activeMono_dinsert_send (m m' : WebSocketManager) (cid : String)
    (conn : ConnectionManager) (o : SendOutcome)
    (hl : dlookup m.active_connections cid = some conn)
    (he : m'.active_connections =
      dinsert m.active_connections cid (conn.send_personal_message o).1) :
    activeMono m' m := by
  intro x c' hx ha
  rw [he] at hx
  by_cases hxc : x = cid
  · subst hxc
    rw [dlookup_dinsert_self] at hx
    injection hx with hx
    subst hx
    exact ⟨conn, hl, send_pm_active_mono conn o ha⟩
  · rw [dlookup_dinsert_ne _ _ _ _ hxc] at hx
    exact ⟨c', hx, ha⟩

theorem subscribe_activeMono (m : WebSocketManager) (cid topic : String)
    (o : SendOutcome) : activeMono (m.subscribe cid topic o) m := by
  cases hl : dlookup m.active_connections cid with
  | none =>
      apply activeMono_of_active_eq
      simp [WebSocketManager.subscribe, hl]
  | some conn =>
      exact activeMono_dinsert_send m _ cid conn o hl
        (by simp [WebSocketManager.subscribe, hl])

theorem unsubscribe_active_eq (m : WebSocketManager) (cid topic : String) :
    (m.unsubscribe cid topic).active_connections = m.active_connections := by
  cases hl : dlookup m.subscriptions topic with
  | none => simp [WebSocketManager.unsubscribe, hl]
  | some s =>
      simp only [WebSocketManager.unsubscribe, hl]
      split <;> rfl

theorem send_personal_activeMono (m : WebSocketManager) (cid : String)
    (msg : Msg) (o : SendOutcome) :
    activeMono (m.send_personal_message cid msg o) m := by
  cases hl : dlookup m.active_connections cid with
  | none =>
      apply activeMono_of_active_eq
      simp [WebSocketManager.send_personal_message, hl]
  | some conn =>
      cases hact : conn.is_active with
      | false =>
          have h : m.send_personal_message cid msg o = m.disconnect cid := by
            simp [WebSocketManager.send_personal_message, hl, hact]
          rw [h]
          exact disconnect_activeMono m cid
      | true =>
          cases hr : (conn.send_personal_message o).2 with
          | true =>
              apply activeMono_dinsert_send m _ cid conn o hl
              simp [WebSocketManager.send_personal_message, hl, hact, hr]
          | false =>
              have key : (m.send_personal_message cid msg o).active_connections =
                  ((sendFailWriteback m cid conn o).disconnect cid).active_connections := by
                simp [WebSocketManager.send_personal_message, sendFailWriteback,
                  hl, hact, hr]
              exact activeMono_trans (activeMono_of_active_eq key)
                (activeMono_trans (disconnect_activeMono _ cid)
                  (activeMono_dinsert_send m _ cid conn o hl rfl))

theorem fanout_activeMono (env : String → SendOutcome) (l : List String) :
    ∀ m : WebSocketManager, activeMono (fanout env m l).1 m := by
  induction l with
  | nil =>
      intro m
      exact activeMono_refl m
  | cons cid rest ih =>
      intro m
      cases hl : dlookup m.active_connections cid with
      | none =>
          have h : (fanout env m (cid :: rest)).1 = (fanout env m rest).1 := by
            simp [fanout, hl]
          rw [h]
          exact ih m
      | some conn =>
          cases hact : conn.is_active with
          | false =>
              have h : (fanout env m (cid :: rest)).1 = (fanout env m rest).1 := by
                simp [fanout, hl, hact]
              rw [h]
              exact ih m
          | true =>
              have h : (fanout env m (cid :: rest)).1 =
                  (fanout env (fanoutStep m cid conn (env cid)) rest).1 := by
                simp [fanout, hl, hact]
              rw [h]
              exact activeMono_trans (ih _)
                (activeMono_dinsert_send m _ cid conn (env cid) hl rfl)

theorem foldl_disconnect_activeMono (l : List String) :
    ∀ m : WebSocketManager,
      activeMono (l.foldl (fun mm c => mm.disconnect c) m) m := by
  induction l with
  | nil => intro m; exact activeMono_refl m
  | cons d rest ih =>
      intro m
      exact activeMono_trans (ih (m.disconnect d)) (disconnect_activeMono m d)

theorem broadcast_topic_activeMono (m : WebSocketManager) (topic : String)
    (env : String → SendOutcome) :
    activeMono (m.broadcast_to_topic topic env).1 m := by
  cases hl : dlookup m.subscriptions topic with
  | none =>
      have h : (m.broadcast_to_topic topic env).1 = m := by
        simp [WebSocketManager.broadcast_to_topic, hl]
      rw [h]
      exact activeMono_refl m
  | some snap =>
      have h : (m.broadcast_to_topic topic env).1 =
          (fanout env m snap).2.1.foldl (fun mm c => mm.disconnect c)
            (fanout env m snap).1 := by
        simp [WebSocketManager.broadcast_to_topic, hl]
      rw [h]
      exact activeMono_trans (foldl_disconnect_activeMono _ _)
        (fanout_activeMono env snap m)

theorem broadcast_all_activeMono (m : WebSocketManager)
    (env : String → SendOutcome) :
    activeMono (m.broadcast_to_all env).1 m := by
  have h : (m.broadcast_to_all env).1 =
      (fanout env m (m.active_connections.map Prod.fst)).2.1.foldl
        (fun mm c => mm.disconnect c)
        (fanout env m (m.active_connections.map Prod.fst)).1 := rfl
  rw [h]
  exact activeMono_trans (foldl_disconnect_activeMono _ _)
    (fanout_activeMono env _ m)

theorem connect_active_ne (m : WebSocketManager) (cid : String)
    (w : SendOutcome) (f : Nat → SendOutcome) (cid' : String) (h : cid' ≠ cid) :
    dlookup (m.connect cid w f).1.active_connections cid' =
      dlookup m.active_connections cid' := by
  cases hq : dlookup m.message_queue cid with
  | none =>
      simp [WebSocketManager.connect, hq, dlookup_dinsert_ne _ _ _ _ h]
  | some msgs =>
      simp [WebSocketManager.connect, hq, dlookup_dinsert_ne _ _ _ _ h]

theorem ping_active_mono (c : ConnectionManager) (b : Bool) (t : Nat)
    (h : (c.ping b t).1.is_active = true) : c.is_active = true := by
  cases b <;> simp_all [ConnectionManager.ping]

end MonoLemmas

/-- C7: the embedded `Connection.send` is a total function returning a
boolean (no exception reaches the caller); success happens only with an
untouched active connection and the `ok` channel outcome; on every failure
(inactive flag, non-connected channel state, or transport error) the returned
flag is false and the connection ends inactive; an already-inactive
connection always reports failure; neither `send` nor `ping` ever turns
`is_active` from false back to true; and every manager operation other than
`connect` is monotone on stored liveness (`activeMono`), while `connect` only
replaces the entry of the connecting client itself — it installs a fresh
connection and leaves every other client's stored connection untouched. -/
theorem c7_send_failfast_and_active_monotone (c : ConnectionManager)
    (o : SendOutcome) (b : Bool) (t : Nat) :
    ((c.send_personal_message o).2 = true →
        (c.send_personal_message o).1 = c ∧ c.is_active = true ∧
          o = SendOutcome.ok) ∧
    ((c.send_personal_message o).2 = false →
        (c.send_personal_message o).1.is_active = false) ∧
    (c.is_active = false → (c.send_personal_message o).2 = false) ∧
    ((c.send_personal_message o).1.is_active = true → c.is_active = true) ∧
    ((c.ping b t).1.is_active = true → c.is_active = true) ∧
    (∀ (m : WebSocketManager) (cid topic : String) (o' : SendOutcome),
        activeMono (m.subscribe cid topic o') m) ∧
    (∀ (m : WebSocketManager) (cid topic : String),
        activeMono (m.unsubscribe cid topic) m) ∧
    (∀ (m : WebSocketManager) (cid : String), activeMono (m.disconnect cid) m) ∧
    (∀ (m : WebSocketManager) (cid : String) (msg : Msg) (o' : SendOutcome),
        activeMono (m.send_personal_message cid msg o') m) ∧
    (∀ (m : WebSocketManager) (topic : String) (env : String → SendOutcome),
        activeMono (m.broadcast_to_topic topic env).1 m) ∧
    (∀ (m : WebSocketManager) (env : String → SendOutcome),
        activeMono (m.broadcast_to_all env).1 m) ∧
    (∀ (m : WebSocketManager) (cid : String) (w : SendOutcome)
        (f : Nat → SendOutcome) (cid' : String), cid' ≠ cid →
        dlookup (m.connect cid w f).1.active_connections cid' =
          dlookup m.active_connections cid') :=
  ⟨send_pm_true c o, send_pm_false c o, send_pm_inactive_false c o,
   send_pm_active_mono c o, ping_active_mono c b t,
   subscribe_activeMono,
   fun m cid topic => activeMono_of_active_eq (unsubscribe_active_eq m cid topic),
   disconnect_activeMono, send_personal_activeMono,
   broadcast_topic_activeMono, broadcast_all_activeMono,
   connect_active_ne⟩

/-- C7 witness: the fail-fast send contract evaluated on a concrete inactive
connection. -/
theorem c7_send_failfast_and_active_monotone_witness :
    cInact.is_active = false ∧
    (cInact.send_personal_message SendOutcome.ok).2 = false ∧
    (cInact.send_personal_message SendOutcome.ok).1.is_active = false :=
  ⟨by decide,
   (c7_send_failfast_and_active_monotone cInact SendOutcome.ok true 0).2.2.1
     (by decide),
   (c7_send_failfast_and_active_monotone cInact SendOutcome.ok true 0).2.1
     ((c7_send_failfast_and_active_monotone cInact SendOutcome.ok true 0).2.2.1
       (by decide))⟩

section StatsInvLemmas

theorem connect_statsInv (m : WebSocketManager) (cid : String)
    (w : SendOutcome) (f : Nat → SendOutcome) : statsInv (m.connect cid w f).1 := by
  simp only [WebSocketManager.connect, statsInv]
  cases hq : dlookup m.message_queue cid with
  | none =>
      simp only [hq]
      exact (length_dinsert_isSome _ _ _ (by rw [dlookup_dinsert_self]; rfl)).symm
  | some msgs =>
      simp only [hq]
      symm
      rw [length_dinsert_isSome _ _ _ (by rw [dlookup_dinsert_self]; rfl)]
      rw [length_dinsert_isSome _ _ _ (by rw [dlookup_dinsert_self]; rfl)]

theorem disconnect_statsInv (m : WebSocketManager) (cid : String)
    (h : statsInv m) : statsInv (m.disconnect cid) := by
  cases hl : dlookup m.active_connections cid with
  | none => rw [disconnect_of_none m cid hl]; exact h
  | some c => simp [WebSocketManager.disconnect, hl, statsInv]

theorem subscribe_statsInv (m : WebSocketManager) (cid topic : String)
    (o : SendOutcome) (h : statsInv m) : statsInv (m.subscribe cid topic o) := by
  cases hl : dlookup m.active_connections cid with
  | none =>
      simp only [WebSocketManager.subscribe, hl, statsInv]
      exact h
  | some conn =>
      simp only [WebSocketManager.subscribe, hl, statsInv]
      rw [length_dinsert_isSome _ _ _ (by rw [hl]; rfl)]
      exact h

theorem unsubscribe_stats_eq (m : WebSocketManager) (cid topic : String) :
    (m.unsubscribe cid topic).stats = m.stats := by
  cases hl : dlookup m.subscriptions topic with
  | none => simp [WebSocketManager.unsubscribe, hl]
  | some s =>
      simp only [WebSocketManager.unsubscribe, hl]
      split <;> rfl

theorem unsubscribe_statsInv (m : WebSocketManager) (cid topic : String)
    (h : statsInv m) : statsInv (m.unsubscribe cid topic) := by
  simp only [statsInv, unsubscribe_stats_eq, unsubscribe_active_eq]
  exact h

theorem send_personal_statsInv (m : WebSocketManager) (cid : String)
    (msg : Msg) (o : SendOutcome) (h : statsInv m) :
    statsInv (m.send_personal_message cid msg o) := by
  cases hl : dlookup m.active_connections cid with
  | none =>
      simp only [WebSocketManager.send_personal_message, hl, statsInv]
      exact h
  | some conn =>
      cases hact : conn.is_active with
      | false =>
          have he : m.send_personal_message cid msg o = m.disconnect cid := by
            simp [WebSocketManager.send_personal_message, hl, hact]
          rw [he]
          exact disconnect_statsInv m cid h
      | true =>
          cases hr : (conn.send_personal_message o).2 with
          | true =>
              simp only [WebSocketManager.send_personal_message, hl, hact, hr,
                if_true, statsInv]
              rw [length_dinsert_isSome _ _ _ (by rw [hl]; rfl)]
              exact h
          | false =>
              have hw : statsInv (sendFailWriteback m cid conn o) := by
                simp only [statsInv, sendFailWriteback]
                rw [length_dinsert_isSome _ _ _ (by rw [hl]; rfl)]
                exact h
              have hd : statsInv ((sendFailWriteback m cid conn o).disconnect cid) :=
                disconnect_statsInv _ cid hw
              have he : (m.send_personal_message cid msg o).stats.active_connections =
                  ((sendFailWriteback m cid conn o).disconnect cid).stats.active_connections := by
                simp [WebSocketManager.send_personal_message, sendFailWriteback,
                  hl, hact, hr]
              have ha : (m.send_personal_message cid msg o).active_connections =
                  ((sendFailWriteback m cid conn o).disconnect cid).active_connections := by
                simp [WebSocketManager.send_personal_message, sendFailWriteback,
                  hl, hact, hr]
              simp only [statsInv] at hd ⊢
              rw [he, ha]
              exact hd

theorem fanout_active_frame (env : String → SendOutcome) (l : List String) :
    ∀ m : WebSocketManager,
      (fanout env m l).1.active_connections.length =
          m.active_connections.length ∧
        (fanout env m l).1.stats.active_connections =
          m.stats.active_connections := by
  induction l with
  | nil => intro m; exact ⟨rfl, rfl⟩
  | cons cid rest ih =>
      intro m
      cases hl : dlookup m.active_connections cid with
      | none =>
          have h : (fanout env m (cid :: rest)).1 = (fanout env m rest).1 := by
            simp [fanout, hl]
          rw [h]
          exact ih m
      | some conn =>
          cases hact : conn.is_active with
          | false =>
              have h : (fanout env m (cid :: rest)).1 = (fanout env m rest).1 := by
                simp [fanout, hl, hact]
              rw [h]
              exact ih m
          | true =>
              have h : (fanout env m (cid :: rest)).1 =
                  (fanout env (fanoutStep m cid conn (env cid)) rest).1 := by
                simp [fanout, hl, hact]
              rw [h]
              have hs : (fanoutStep m cid conn (env cid)).active_connections.length =
                  m.active_connections.length :=
                length_dinsert_isSome _ _ _ (by rw [hl]; rfl)
              have hst : (fanoutStep m cid conn (env cid)).stats.active_connections =
                  m.stats.active_connections := by
                cases hF : (conn.send_personal_message (env cid)).2 <;>
                  simp [fanoutStep, hF]
              obtain ⟨ih1, ih2⟩ := ih (fanoutStep m cid conn (env cid))
              exact ⟨ih1.trans hs, ih2.trans hst⟩

theorem foldl_disconnect_statsInv (l : List String) :
    ∀ m : WebSocketManager, statsInv m →
      statsInv (l.foldl (fun mm c => mm.disconnect c) m) := by
  induction l with
  | nil => intro m h; exact h
  | cons d rest ih =>
      intro m h
      exact ih (m.disconnect d) (disconnect_statsInv m d h)

theorem broadcast_topic_statsInv (m : WebSocketManager) (topic : String)
    (env : String → SendOutcome) (h : statsInv m) :
    statsInv (m.broadcast_to_topic topic env).1 := by
  cases hl : dlookup m.subscriptions topic with
  | none =>
      have he : (m.broadcast_to_topic topic env).1 = m := by
        simp [WebSocketManager.broadcast_to_topic, hl]
      rw [he]
      exact h
  | some snap =>
      have he : (m.broadcast_to_topic topic env).1 =
          (fanout env m snap).2.1.foldl (fun mm c => mm.disconnect c)
            (fanout env m snap).1 := by
        simp [WebSocketManager.broadcast_to_topic, hl]
      rw [he]
      apply foldl_disconnect_statsInv
      obtain ⟨h1, h2⟩ := fanout_active_frame env snap m
      simp only [statsInv] at h ⊢
      rw [h1, h2]
      exact h

theorem broadcast_all_statsInv (m : WebSocketManager)
    (env : String → SendOutcome) (h : statsInv m) :
    statsInv (m.broadcast_to_all env).1 := by
  have he : (m.broadcast_to_all env).1 =
      (fanout env m (m.active_connections.map Prod.fst)).2.1.foldl
        (fun mm c => mm.disconnect c)
        (fanout env m (m.active_connections.map Prod.fst)).1 := rfl
  rw [he]
  apply foldl_disconnect_statsInv
  obtain ⟨h1, h2⟩ := fanout_active_frame env (m.active_connections.map Prod.fst) m
  simp only [statsInv] at h ⊢
  rw [h1, h2]
  exact h

end StatsInvLemmas

/-- C3: from a state where the `active_connections` counter equals the number
of stored connections, every public mutating manager operation — connect,
disconnect, subscribe, unsubscribe, send_personal_message,
broadcast_to_topic, broadcast_to_all — re-establishes that equality when it
completes. -/
theorem c3_active_connections_counter (m : WebSocketManager) (h : statsInv m)
    (cid topic : String) (msg : Msg) (o w : SendOutcome)
    (f : Nat → SendOutcome) (env : String → SendOutcome) :
    statsInv (m.connect cid w f).1 ∧
    statsInv (m.disconnect cid) ∧
    statsInv (m.subscribe cid topic o) ∧
    statsInv (m.unsubscribe cid topic) ∧
    statsInv (m.send_personal_message cid msg o) ∧
    statsInv (m.broadcast_to_topic topic env).1 ∧
    statsInv (m.broadcast_to_all env).1 :=
  ⟨connect_statsInv m cid w f, disconnect_statsInv m cid h,
   subscribe_statsInv m cid topic o h, unsubscribe_statsInv m cid topic h,
   send_personal_statsInv m cid msg o h,
   broadcast_topic_statsInv m topic env h, broadcast_all_statsInv m env h⟩

/-- C3 witness: the counter invariant evaluated on the concrete one-client
state `mInact` for every operation. -/
theorem c3_active_connections_counter_witness :
    statsInv mInact ∧
    (statsInv (mInact.connect "a" SendOutcome.ok (fun _ => SendOutcome.ok)).1 ∧
     statsInv (mInact.disconnect "a") ∧
     statsInv (mInact.subscribe "a" "t" SendOutcome.ok) ∧
     statsInv (mInact.unsubscribe "a" "t") ∧
     statsInv (mInact.send_personal_message "a" (Msg.payload 0) SendOutcome.ok) ∧
     statsInv (mInact.broadcast_to_topic "t" (fun _ => SendOutcome.ok)).1 ∧
     statsInv (mInact.broadcast_to_all (fun _ => SendOutcome.ok)).1) :=
  ⟨rfl, c3_active_connections_counter mInact rfl "a" "t" (Msg.payload 0)
    SendOutcome.ok SendOutcome.ok (fun _ => SendOutcome.ok)
    (fun _ => SendOutcome.ok)⟩

section BroadcastLemmas

theorem removeClientFromTopics_self
    (subs : List (String × List String)) (cid : String) :
    ∀ p ∈ removeClientFromTopics subs cid, cid ∉ p.2 := by
  intro p hp
  rw [removeClientFromTopics, List.mem_filterMap] at hp
  obtain ⟨q, hq, hfq⟩ := hp
  by_cases hmem : cid ∈ q.2
  · simp only [if_pos hmem] at hfq
    by_cases he : (q.2.filter (fun x => x != cid)).isEmpty
    · simp [he] at hfq
    · simp only [if_neg he, Option.some.injEq] at hfq
      subst hfq
      intro hin
      have := (List.mem_filter.mp hin).2
      simp at this
  · simp only [if_neg hmem, Option.some.injEq] at hfq
    subst hfq
    exact hmem

theorem removeClientFromTopics_subset
    (subs : List (String × List String)) (cid : String) :
    ∀ p ∈ removeClientFromTopics subs cid,
      ∃ q ∈ subs, ∀ x ∈ p.2, x ∈ q.2 := by
  intro p hp
  rw [removeClientFromTopics, List.mem_filterMap] at hp
  obtain ⟨q, hq, hfq⟩ := hp
  by_cases hmem : cid ∈ q.2
  · simp only [if_pos hmem] at hfq
    by_cases he : (q.2.filter (fun x => x != cid)).isEmpty
    · simp [he] at hfq
    · simp only [if_neg he, Option.some.injEq] at hfq
      subst hfq
      exact ⟨q, hq, fun x hx => (List.mem_filter.mp hx).1⟩
  · simp only [if_neg hmem, Option.some.injEq] at hfq
    subst hfq
    exact ⟨q, hq, fun x hx => hx⟩

theorem disconnect_gone (m : WebSocketManager) (cid : String)
    (h : (dlookup m.active_connections cid).isSome) :
    goneP cid (m.disconnect cid) := by
  obtain ⟨c, hc⟩ := Option.isSome_iff_exists.mp h
  constructor
  · simp [WebSocketManager.disconnect, hc, dlookup_derase_self]
  · intro p hp
    have hsubs : (m.disconnect cid).subscriptions =
        removeClientFromTopics m.subscriptions cid := by
      simp [WebSocketManager.disconnect, hc]
    rw [hsubs] at hp
    exact removeClientFromTopics_self _ _ p hp

theorem gone_preserved_disconnect (m : WebSocketManager) (cid d : String)
    (h : goneP cid m) : goneP cid (m.disconnect d) := by
  cases hd : dlookup m.active_connections d with
  | none => rw [disconnect_of_none m d hd]; exact h
  | some c =>
      obtain ⟨h1, h2⟩ := h
      constructor
      · have he : (m.disconnect d).active_connections =
            derase m.active_connections d := by
          simp [WebSocketManager.disconnect, hd]
        rw [he]
        exact dlookup_derase_none _ _ _ h1
      · intro p hp
        have hsubs : (m.disconnect d).subscriptions =
            removeClientFromTopics m.subscriptions d := by
          simp [WebSocketManager.disconnect, hd]
        rw [hsubs] at hp
        obtain ⟨q, hq, hsub⟩ := removeClientFromTopics_subset _ _ p hp
        intro hmem
        exact h2 q hq (hsub cid hmem)

theorem gone_or_some_preserved (m : WebSocketManager) (cid d : String)
    (h : (dlookup m.active_connections cid).isSome ∨ goneP cid m) :
    (dlookup (m.disconnect d).active_connections cid).isSome ∨
      goneP cid (m.disconnect d) := by
  cases h with
  | inr hg => exact Or.inr (gone_preserved_disconnect m cid d hg)
  | inl hs =>
      by_cases hcd : cid = d
      · subst hcd
        exact Or.inr (disconnect_gone m cid hs)
      · cases hd : dlookup m.active_connections d with
        | none => rw [disconnect_of_none m d hd]; exact Or.inl hs
        | some c =>
            left
            have he : (m.disconnect d).active_connections =
                derase m.active_connections d := by
              simp [WebSocketManager.disconnect, hd]
            rw [he, dlookup_derase_ne _ _ _ hcd]
            exact hs

theorem foldl_gone_of_gone (cid : String) (l : List String) :
    ∀ m : WebSocketManager, goneP cid m →
      goneP cid (l.foldl (fun mm c => mm.disconnect c) m) := by
  induction l with
  | nil => intro m h; exact h
  | cons d rest ih =>
      intro m h
      exact ih (m.disconnect d) (gone_preserved_disconnect m cid d h)

theorem foldl_gone (cid : String) (l : List String) :
    ∀ m : WebSocketManager, cid ∈ l →
      ((dlookup m.active_connections cid).isSome ∨ goneP cid m) →
      goneP cid (l.foldl (fun mm c => mm.disconnect c) m) := by
  induction l with
  | nil => intro m hmem; simp at hmem
  | cons d rest ih =>
      intro m hmem hq
      simp only [List.foldl_cons]
      rcases List.mem_cons.mp hmem with hcd | hrest
      · subst hcd
        have hg : goneP cid (m.disconnect cid) := by
          cases hq with
          | inl hs => exact disconnect_gone m cid hs
          | inr hg => exact gone_preserved_disconnect m cid cid hg
        exact foldl_gone_of_gone cid rest _ hg
      · exact ih (m.disconnect d) hrest (gone_or_some_preserved m cid d hq)

theorem fanout_trace_mem (env : String → SendOutcome) (l : List String) :
    ∀ (m : WebSocketManager) (cid : String) (conn : ConnectionManager),
      cid ∈ l → dlookup m.active_connections cid = some conn →
      conn.is_active = true → ∃ b, (cid, b) ∈ (fanout env m l).2.2 := by
  induction l with
  | nil => intro m cid conn h; simp at h
  | cons a rest ih =>
      intro m cid conn hmem hl hact
      by_cases hac : a = cid
      · subst hac
        have he : (fanout env m (a :: rest)).2.2 =
            (a, (conn.send_personal_message (env a)).2) ::
              (fanout env (fanoutStep m a conn (env a)) rest).2.2 := by
          simp [fanout, hl, hact]
        rw [he]
        exact ⟨(conn.send_personal_message (env a)).2, List.mem_cons_self _ _⟩
      · have hrest : cid ∈ rest := by
          rcases List.mem_cons.mp hmem with h | h
          · exact absurd h.symm hac
          · exact h
        cases hla : dlookup m.active_connections a with
        | none =>
            have he : (fanout env m (a :: rest)).2.2 = (fanout env m rest).2.2 := by
              simp [fanout, hla]
            rw [he]
            exact ih m cid conn hrest hl hact
        | some ca =>
            cases hcact : ca.is_active with
            | false =>
                have he : (fanout env m (a :: rest)).2.2 =
                    (fanout env m rest).2.2 := by
                  simp [fanout, hla, hcact]
                rw [he]
                exact ih m cid conn hrest hl hact
            | true =>
                have he : (fanout env m (a :: rest)).2.2 =
                    (a, (ca.send_personal_message (env a)).2) ::
                      (fanout env (fanoutStep m a ca (env a)) rest).2.2 := by
                  simp [fanout, hla, hcact]
                rw [he]
                have hl' : dlookup (fanoutStep m a ca (env a)).active_connections
                    cid = some conn := by
                  show dlookup (dinsert m.active_connections a
                    (ca.send_personal_message (env a)).1) cid = some conn
                  rw [dlookup_dinsert_ne _ _ _ _ (Ne.symm hac)]
                  exact hl
                obtain ⟨b, hb⟩ := ih _ cid conn hrest hl' hact
                exact ⟨b, List.mem_cons_of_mem _ hb⟩

theorem fanout_disc_mem (env : String → SendOutcome) (l : List String) :
    ∀ (m : WebSocketManager) (cid : String) (conn : ConnectionManager),
      cid ∈ l → dlookup m.active_connections cid = some conn →
      (conn.send_personal_message (env cid)).2 = false →
      cid ∈ (fanout env m l).2.1 := by
  induction l with
  | nil => intro m cid conn h; simp at h
  | cons a rest ih =>
      intro m cid conn hmem hl hfail
      by_cases hac : a = cid
      · subst hac
        cases hact : conn.is_active with
        | false =>
            have he : (fanout env m (a :: rest)).2.1 =
                a :: (fanout env m rest).2.1 := by
              simp [fanout, hl, hact]
            rw [he]
            exact List.mem_cons_self _ _
        | true =>
            have he : (fanout env m (a :: rest)).2.1 =
                a :: (fanout env (fanoutStep m a conn (env a)) rest).2.1 := by
              simp [fanout, hl, hact, hfail]
            rw [he]
            exact List.mem_cons_self _ _
      · have hrest : cid ∈ rest := by
          rcases List.mem_cons.mp hmem with h | h
          · exact absurd h.symm hac
          · exact h
        cases hla : dlookup m.active_connections a with
        | none =>
            have he : (fanout env m (a :: rest)).2.1 = (fanout env m rest).2.1 := by
              simp [fanout, hla]
            rw [he]
            exact ih m cid conn hrest hl hfail
        | some ca =>
            cases hcact : ca.is_active with
            | false =>
                have he : (fanout env m (a :: rest)).2.1 =
                    a :: (fanout env m rest).2.1 := by
                  simp [fanout, hla, hcact]
                rw [he]
                exact List.mem_cons_of_mem _ (ih m cid conn hrest hl hfail)
            | true =>
                have hl' : dlookup (fanoutStep m a ca (env a)).active_connections
                    cid = some conn := by
                  show dlookup (dinsert m.active_connections a
                    (ca.send_personal_message (env a)).1) cid = some conn
                  rw [dlookup_dinsert_ne _ _ _ _ (Ne.symm hac)]
                  exact hl
                have hmem' := ih _ cid conn hrest hl' hfail
                cases hcr : (ca.send_personal_message (env a)).2 with
                | true =>
                    have he : (fanout env m (a :: rest)).2.1 =
                        (fanout env (fanoutStep m a ca (env a)) rest).2.1 := by
                      simp [fanout, hla, hcact, hcr]
                    rw [he]
                    exact hmem'
                | false =>
                    have he : (fanout env m (a :: rest)).2.1 =
                        a :: (fanout env (fanoutStep m a ca (env a)) rest).2.1 := by
                      simp [fanout, hla, hcact, hcr]
                    rw [he]
                    exact List.mem_cons_of_mem _ hmem'

theorem fanout_lookup_isSome (env : String → SendOutcome) (l : List String) :
    ∀ (m : WebSocketManager) (cid : String),
      (dlookup m.active_connections cid).isSome →
      (dlookup (fanout env m l).1.active_connections cid).isSome := by
  induction l with
  | nil => intro m cid h; exact h
  | cons a rest ih =>
      intro m cid h
      cases hla : dlookup m.active_connections a with
      | none =>
          have he : (fanout env m (a :: rest)).1 = (fanout env m rest).1 := by
            simp [fanout, hla]
          rw [he]
          exact ih m cid h
      | some ca =>
          cases hcact : ca.is_active with
          | false =>
              have he : (fanout env m (a :: rest)).1 = (fanout env m rest).1 := by
                simp [fanout, hla, hcact]
              rw [he]
              exact ih m cid h
          | true =>
              have he : (fanout env m (a :: rest)).1 =
                  (fanout env (fanoutStep m a ca (env a)) rest).1 := by
                simp [fanout, hla, hcact]
              rw [he]
              apply ih
              show (dlookup (dinsert m.active_connections a
                (ca.send_personal_message (env a)).1) cid).isSome
              by_cases hac : cid = a
              · subst hac
                rw [dlookup_dinsert_self]
                rfl
              · rw [dlookup_dinsert_ne _ _ _ _ hac]
                exact h

end BroadcastLemmas

/-- C4: for a broadcast over a topic whose subscriber snapshot is `snap`:
(1) every snapshot member with a stored active connection receives a send
attempt, whatever the channel outcomes of the other members are (so one
failing subscriber never suppresses delivery to the rest); (2) every snapshot
member whose stored connection reports send failure — which covers both a
send that fails on the wire and a connection that was already inactive, since
an inactive connection's send returns false — has, by the time the call
returns, no entry in `active_connections` and no membership in any topic's
subscriber set. The disconnects run in the cleanup fold after the whole
fan-out pass, exactly as `broadcast_to_topic` is defined. -/
theorem c4_broadcast_isolation (m : WebSocketManager) (topic : String)
    (env : String → SendOutcome) (snap : List String)
    (hsnap : dlookup m.subscriptions topic = some snap) :
    (∀ cid conn, cid ∈ snap → dlookup m.active_connections cid = some conn →
        conn.is_active = true →
        ∃ b, (cid, b) ∈ (m.broadcast_to_topic topic env).2) ∧
    (∀ cid conn, cid ∈ snap → dlookup m.active_connections cid = some conn →
        (conn.send_personal_message (env cid)).2 = false →
        dlookup (m.broadcast_to_topic topic env).1.active_connections cid =
            none ∧
          ∀ t s, dlookup (m.broadcast_to_topic topic env).1.subscriptions t =
              some s → cid ∉ s) := by
  have he1 : (m.broadcast_to_topic topic env).2 = (fanout env m snap).2.2 := by
    simp [WebSocketManager.broadcast_to_topic, hsnap]
  have he2 : (m.broadcast_to_topic topic env).1 =
      (fanout env m snap).2.1.foldl (fun mm c => mm.disconnect c)
        (fanout env m snap).1 := by
    simp [WebSocketManager.broadcast_to_topic, hsnap]
  constructor
  · intro cid conn hmem hl hact
    rw [he1]
    exact fanout_trace_mem env snap m cid conn hmem hl hact
  · intro cid conn hmem hl hfail
    rw [he2]
    have hdisc : cid ∈ (fanout env m snap).2.1 :=
      fanout_disc_mem env snap m cid conn hmem hl hfail
    have hsome : (dlookup (fanout env m snap).1.active_connections cid).isSome :=
      fanout_lookup_isSome env snap m cid (by rw [hl]; rfl)
    have hg := foldl_gone cid (fanout env m snap).2.1 (fanout env m snap).1
      hdisc (Or.inl hsome)
    exact ⟨hg.1, fun t s hts => hg.2 (t, s) (dlookup_mem _ _ _ hts)⟩

/-- C4 witness: the broadcast-isolation conclusions evaluated on the concrete
two-client state `mBroad` under the environment where client `a`'s send
raises. -/
theorem c4_broadcast_isolation_witness :
    dlookup mBroad.subscriptions "t" = some ["a", "b"] ∧
    (∀ cid conn, cid ∈ ["a", "b"] →
        dlookup mBroad.active_connections cid = some conn →
        conn.is_active = true →
        ∃ b, (cid, b) ∈ (mBroad.broadcast_to_topic "t" envBroad).2) ∧
    (∀ cid conn, cid ∈ ["a", "b"] →
        dlookup mBroad.active_connections cid = some conn →
        (conn.send_personal_message (envBroad cid)).2 = false →
        dlookup (mBroad.broadcast_to_topic "t" envBroad).1.active_connections
            cid = none ∧
          ∀ t s, dlookup (mBroad.broadcast_to_topic "t" envBroad).1.subscriptions
              t = some s → cid ∉ s) := by
  have h := c4_broadcast_isolation mBroad "t" envBroad ["a", "b"] (by decide)
  exact ⟨by decide, h.1, h.2⟩

section QueueLemmas

theorem send_personal_offline (m : WebSocketManager) (cid : String)
    (msg : Msg) (o : SendOutcome)
    (h : dlookup m.active_connections cid = none) :
    m.send_personal_message cid msg o =
      { m with message_queue :=
          dinsert m.message_queue cid (((dlookup m.message_queue cid).getD []) ++ [msg]) } := by
  simp [WebSocketManager.send_personal_message, h]

theorem offlineSends_queue (cid : String) (o : SendOutcome) (msgs : List Msg) :
    ∀ (m : WebSocketManager) (q0 : List Msg),
      dlookup m.active_connections cid = none →
      dlookup m.message_queue cid = some q0 →
      dlookup (offlineSends m cid msgs o).active_connections cid = none ∧
        dlookup (offlineSends m cid msgs o).message_queue cid =
          some (q0 ++ msgs) := by
  induction msgs with
  | nil =>
      intro m q0 h hq
      exact ⟨h, by simpa using hq⟩
  | cons msg rest ih =>
      intro m q0 h hq
      have hunf : offlineSends m cid (msg :: rest) o =
          offlineSends (m.send_personal_message cid msg o) cid rest o := rfl
      have ha' : dlookup (m.send_personal_message cid msg o).active_connections
          cid = none := by
        rw [send_personal_offline m cid msg o h]
        exact h
      have hq' : dlookup (m.send_personal_message cid msg o).message_queue
          cid = some (q0 ++ [msg]) := by
        rw [send_personal_offline m cid msg o h]
        simp [dlookup_dinsert_self, hq]
      obtain ⟨ha, hqq⟩ :=
        ih (m.send_personal_message cid msg o) (q0 ++ [msg]) ha' hq'
      rw [hunf]
      refine ⟨ha, ?_⟩
      rw [hqq]
      simp

theorem flushQueued_trace (fOut : Nat → SendOutcome) (msgs : List Msg) :
    ∀ (c : ConnectionManager) (i : Nat),
      ((flushQueued fOut c i msgs).2).map Prod.fst = msgs := by
  induction msgs with
  | nil => intro c i; rfl
  | cons msg rest ih => intro c i; simp [flushQueued, ih]

theorem connect_trace_of_queue (m : WebSocketManager) (cid : String)
    (w : SendOutcome) (f : Nat → SendOutcome) (msgs : List Msg)
    (hq : dlookup m.message_queue cid = some msgs) :
    ((m.connect cid w f).2).map Prod.fst = Msg.welcome cid :: msgs ∧
    dlookup (m.connect cid w f).1.message_queue cid = none := by
  constructor
  · simp [WebSocketManager.connect, hq, flushQueued_trace]
  · simp [WebSocketManager.connect, hq, dlookup_derase_self]

theorem connect_trace_of_noqueue (m : WebSocketManager) (cid : String)
    (w : SendOutcome) (f : Nat → SendOutcome)
    (hq : dlookup m.message_queue cid = none) :
    ((m.connect cid w f).2).map Prod.fst = [Msg.welcome cid] ∧
    dlookup (m.connect cid w f).1.message_queue cid = none := by
  constructor <;> simp [WebSocketManager.connect, hq]

end QueueLemmas

/-- C5: for a client id with no stored connection and no offline-queue entry,
a sequence of `send_personal_message` calls for messages `m1..mN` followed by
a `connect` for that id produces send attempts in exactly the order: welcome
message first, then `m1..mN` in call (FIFO enqueue) order — no cleanup pass
intervenes in this sequence, so no message is dropped — and afterwards the
offline-queue entry for the client id is gone. -/
theorem c5_offline_fifo (m : WebSocketManager) (cid : String)
    (msgs : List Msg) (w o : SendOutcome) (f : Nat → SendOutcome)
    (h1 : dlookup m.active_connections cid = none)
    (h2 : dlookup m.message_queue cid = none) :
    (((offlineSends m cid msgs o).connect cid w f).2).map Prod.fst =
        Msg.welcome cid :: msgs ∧
    dlookup ((offlineSends m cid msgs o).connect cid w f).1.message_queue
        cid = none := by
  cases msgs with
  | nil => exact connect_trace_of_noqueue m cid w f h2
  | cons msg rest =>
      have hunf : offlineSends m cid (msg :: rest) o =
          offlineSends (m.send_personal_message cid msg o) cid rest o := rfl
      have ha' : dlookup (m.send_personal_message cid msg o).active_connections
          cid = none := by
        rw [send_personal_offline m cid msg o h1]
        exact h1
      have hq' : dlookup (m.send_personal_message cid msg o).message_queue
          cid = some [msg] := by
        rw [send_personal_offline m cid msg o h1]
        simp [dlookup_dinsert_self, h2]
      obtain ⟨hA, hQ⟩ := offlineSends_queue cid o rest _ [msg] ha' hq'
      rw [hunf]
      have h := connect_trace_of_queue
        (offlineSends (m.send_personal_message cid msg o) cid rest o)
        cid w f ([msg] ++ rest) hQ
      simpa using h

/-- C5 witness: two messages queued to the offline client `a` of the initial
state, then a connect: the attempt order is welcome, payload 1, payload 2 and
the queue entry is gone. -/
theorem c5_offline_fifo_witness :
    (((offlineSends WebSocketManager.init "a"
          [Msg.payload 1, Msg.payload 2] SendOutcome.ok).connect "a"
          SendOutcome.ok (fun _ => SendOutcome.ok)).2).map Prod.fst =
        [Msg.welcome "a", Msg.payload 1, Msg.payload 2] ∧
    dlookup ((offlineSends WebSocketManager.init "a"
          [Msg.payload 1, Msg.payload 2] SendOutcome.ok).connect "a"
          SendOutcome.ok (fun _ => SendOutcome.ok)).1.message_queue "a" =
        none :=
  c5_offline_fifo WebSocketManager.init "a" [Msg.payload 1, Msg.payload 2]
    SendOutcome.ok SendOutcome.ok (fun _ => SendOutcome.ok) rfl rfl

/-- C6: one pass of the queue cleanup over the offline queues truncates every
entry longer than 100 to exactly its 100 most recent messages — a suffix of
the original list, order preserved — and leaves entries of length at most 100
unchanged. -/
theorem c6_cleanup_truncates (q : List (String × List Msg)) (cid : String)
    (msgs : List Msg) (h : dlookup q cid = some msgs) :
    (100 < msgs.length →
        dlookup (cleanupPass q) cid =
            some (msgs.drop (msgs.length - 100)) ∧
          (msgs.drop (msgs.length - 100)).length = 100 ∧
          List.IsSuffix (msgs.drop (msgs.length - 100)) msgs) ∧
    (msgs.length ≤ 100 → dlookup (cleanupPass q) cid = some msgs) := by
  have hm : dlookup (cleanupPass q) cid = some (truncQueue msgs) := by
    rw [cleanupPass, dlookup_map_value, h]
    rfl
  constructor
  · intro hlen
    refine ⟨?_, ?_, List.drop_suffix _ _⟩
    · rw [hm, truncQueue, if_pos hlen]
    · rw [List.length_drop]
      omega
  · intro hlen
    rw [hm, truncQueue, if_neg (by omega)]

/-- C6 witness: the truncation evaluated on a concrete 101-message queue. -/
theorem c6_cleanup_truncates_witness :
    100 < msEx.length ∧
    (dlookup (cleanupPass qEx) "c" = some (msEx.drop (msEx.length - 100)) ∧
     (msEx.drop (msEx.length - 100)).length = 100 ∧
     List.IsSuffix (msEx.drop (msEx.length - 100)) msEx) :=
  ⟨by decide, (c6_cleanup_truncates qEx "c" msEx (by decide)).1 (by decide)⟩

section SubscriptionLemmas

theorem setAdd_mem (s : List String) (x : String) : x ∈ setAdd s x := by
  unfold setAdd
  by_cases h : x ∈ s
  · rwa [if_pos h]
  · rw [if_neg h]
    exact List.mem_append_right _ (List.mem_cons_self _ _)

theorem subscribe_subscriptions_eq (m : WebSocketManager)
    (cid topic : String) (o : SendOutcome) :
    (m.subscribe cid topic o).subscriptions =
      dinsert (topicEnsured m.subscriptions topic) topic
        (setAdd ((dlookup (topicEnsured m.subscriptions topic) topic).getD [])
          cid) := by
  cases hl : dlookup m.active_connections cid <;>
    simp [WebSocketManager.subscribe, hl]

theorem subscribe_adds_to_topic (m : WebSocketManager) (cid topic : String)
    (o : SendOutcome) :
    cid ∈ (dlookup (m.subscribe cid topic o).subscriptions topic).getD [] := by
  rw [subscribe_subscriptions_eq, dlookup_dinsert_self]
  exact setAdd_mem _ cid

theorem subscribe_conn_subscriptions (m : WebSocketManager)
    (cid topic : String) (o : SendOutcome) :
    ∀ x c', dlookup (m.subscribe cid topic o).active_connections x = some c' →
      ∃ c, dlookup m.active_connections x = some c ∧
        c'.subscriptions = c.subscriptions := by
  intro x c' hx
  cases hl : dlookup m.active_connections cid with
  | none =>
      have he : (m.subscribe cid topic o).active_connections =
          m.active_connections := by
        simp [WebSocketManager.subscribe, hl]
      rw [he] at hx
      exact ⟨c', hx, rfl⟩
  | some conn =>
      have he : (m.subscribe cid topic o).active_connections =
          dinsert m.active_connections cid (conn.send_personal_message o).1 := by
        simp [WebSocketManager.subscribe, hl]
      rw [he] at hx
      by_cases hxc : x = cid
      · subst hxc
        rw [dlookup_dinsert_self] at hx
        injection hx with hx
        subst hx
        exact ⟨conn, hl, send_pm_subscriptions conn o⟩
      · rw [dlookup_dinsert_ne _ _ _ _ hxc] at hx
        exact ⟨c', hx, rfl⟩

theorem disconnect_lookup_some (m : WebSocketManager) (d x : String)
    (c' : ConnectionManager)
    (h : dlookup (m.disconnect d).active_connections x = some c') :
    dlookup m.active_connections x = some c' := by
  cases hd : dlookup m.active_connections d with
  | none => rwa [disconnect_of_none m d hd] at h
  | some c =>
      have he : (m.disconnect d).active_connections =
          derase m.active_connections d := by
        simp [WebSocketManager.disconnect, hd]
      rw [he] at h
      exact dlookup_derase_some _ _ _ _ h

theorem flushQueued_subscriptions (fOut : Nat → SendOutcome) (msgs : List Msg) :
    ∀ (c : ConnectionManager) (i : Nat),
      (flushQueued fOut c i msgs).1.subscriptions = c.subscriptions := by
  induction msgs with
  | nil => intro c i; rfl
  | cons msg rest ih =>
      intro c i
      simp only [flushQueued]
      rw [ih]
      exact send_pm_subscriptions c (fOut i)

theorem connect_conn_empty_subs (m : WebSocketManager) (cid : String)
    (w : SendOutcome) (f : Nat → SendOutcome) :
    ∀ c, dlookup (m.connect cid w f).1.active_connections cid = some c →
      c.subscriptions = [] := by
  intro c hc
  cases hq : dlookup m.message_queue cid with
  | none =>
      have he : (m.connect cid w f).1.active_connections =
          dinsert (dinsert m.active_connections cid ⟨cid, [], 0, true⟩) cid
            ((⟨cid, [], 0, true⟩ : ConnectionManager).send_personal_message w).1 := by
        simp [WebSocketManager.connect, hq]
      rw [he, dlookup_dinsert_self] at hc
      injection hc with hc
      subst hc
      exact send_pm_subscriptions _ w
  | some msgs =>
      have he : (m.connect cid w f).1.active_connections =
          dinsert (dinsert (dinsert m.active_connections cid ⟨cid, [], 0, true⟩)
              cid
              ((⟨cid, [], 0, true⟩ : ConnectionManager).send_personal_message w).1)
            cid
            (flushQueued f
              ((⟨cid, [], 0, true⟩ : ConnectionManager).send_personal_message w).1
              0 msgs).1 := by
        simp [WebSocketManager.connect, hq]
      rw [he, dlookup_dinsert_self] at hc
      injection hc with hc
      subst hc
      rw [flushQueued_subscriptions]
      exact send_pm_subscriptions _ w

end SubscriptionLemmas

/-- C1 counterexample: in the concrete state reached by `connect("a")` then
`subscribe("a","t")` with every send succeeding, client `a` is in
`topic_index["t"]` while the stored Connection of `a` has an empty local
`subscriptions` set — so `"t"` is not in it and the claimed biconditional
(and the claimed add-to-Connection behaviour of subscribe) is false. -/
theorem c1_counterexample_subscriptions_not_mirrored :
    "a" ∈ (dlookup mC1b.subscriptions "t").getD [] ∧
    (dlookup mC1b.active_connections "a").map ConnectionManager.subscriptions =
      some [] := by decide

/-- C1 amended: `subscribe(cid, t)` adds `cid` to `topic_index[t]` but never
modifies any stored Connection's local `subscriptions` set; `unsubscribe` and
`disconnect` also leave every surviving Connection's `subscriptions` set
unchanged, and `connect` installs a Connection whose `subscriptions` set is
empty — so the Connection-local set stays empty forever and only the
manager-side `topic_index` tracks membership. -/
theorem c1_amended_topic_index_only (m : WebSocketManager)
    (cid topic d u : String) (o w : SendOutcome) (f : Nat → SendOutcome) :
    cid ∈ (dlookup (m.subscribe cid topic o).subscriptions topic).getD [] ∧
    (∀ x c', dlookup (m.subscribe cid topic o).active_connections x = some c' →
        ∃ c, dlookup m.active_connections x = some c ∧
          c'.subscriptions = c.subscriptions) ∧
    (∀ x c', dlookup (m.unsubscribe d u).active_connections x = some c' →
        dlookup m.active_connections x = some c') ∧
    (∀ x c', dlookup (m.disconnect d).active_connections x = some c' →
        dlookup m.active_connections x = some c') ∧
    (∀ c, dlookup (m.connect cid w f).1.active_connections cid = some c →
        c.subscriptions = []) :=
  ⟨subscribe_adds_to_topic m cid topic o,
   subscribe_conn_subscriptions m cid topic o,
   fun x c' hx => by rwa [unsubscribe_active_eq] at hx,
   fun x c' hx => disconnect_lookup_some m d x c' hx,
   connect_conn_empty_subs m cid w f⟩

/-- C1 amended witness: evaluated on the concrete connected client `a`. -/
theorem c1_amended_topic_index_only_witness :
    "a" ∈ (dlookup (mC1a.subscribe "a" "t" SendOutcome.ok).subscriptions
        "t").getD [] ∧
    (∃ c, dlookup mC1a.active_connections "a" = some c ∧
        (⟨"a", [], 0, true⟩ : ConnectionManager).subscriptions =
          c.subscriptions) ∧
    (⟨"a", [], 0, true⟩ : ConnectionManager).subscriptions = [] := by
  have h := c1_amended_topic_index_only mC1a "a" "t" "a" "t" SendOutcome.ok
    SendOutcome.ok (fun _ => SendOutcome.ok)
  exact ⟨h.1, h.2.1 "a" ⟨"a", [], 0, true⟩ (by decide),
    h.2.2.2.2 ⟨"a", [], 0, true⟩ (by decide)⟩

/-- C2 counterexample: `subscribe("ghost","t")` on the empty initial state
puts `ghost` into `topic_index["t"]` although `ghost` has no stored
connection — a stale subscriber entry, refuting the claimed invariant and the
claim that such a subscribe leaves no trace. -/
theorem c2_counterexample_stale_subscriber :
    dlookup mC2.subscriptions "t" = some ["ghost"] ∧
    dlookup mC2.active_connections "ghost" = none := by decide

/-- C2 amended: `subscribe(cid, t)` adds `cid` to `topic_index[t]`
unconditionally, even when `cid` has no stored connection (so stale entries
can appear and the claimed invariant does not hold for all reachable states);
`disconnect` of a client that does have a stored connection eagerly removes
it from every topic's subscriber set. -/
theorem c2_amended_unconditional_subscribe (m : WebSocketManager)
    (cid topic : String) (o : SendOutcome) :
    cid ∈ (dlookup (m.subscribe cid topic o).subscriptions topic).getD [] ∧
    ((dlookup m.active_connections cid).isSome →
        ∀ t s, dlookup (m.disconnect cid).subscriptions t = some s →
          cid ∉ s) := by
  refine ⟨subscribe_adds_to_topic m cid topic o, fun hs t s hts => ?_⟩
  have hg := disconnect_gone m cid hs
  exact hg.2 (t, s) (dlookup_mem _ _ _ hts)

/-- C2 amended witness: the ghost subscribe on the initial state and the
eager disconnect cleanup on the connected client `a`. -/
theorem c2_amended_unconditional_subscribe_witness :
    "ghost" ∈ (dlookup (WebSocketManager.init.subscribe "ghost" "t"
        SendOutcome.ok).subscriptions "t").getD [] ∧
    (∀ t s, dlookup (mC1a.disconnect "a").subscriptions t = some s →
        "a" ∉ s) :=
  ⟨(c2_amended_unconditional_subscribe WebSocketManager.init "ghost" "t"
      SendOutcome.ok).1,
   (c2_amended_unconditional_subscribe mC1a "a" "t" SendOutcome.ok).2
     (by decide)⟩

end WS
